import Mathlib

/-!
Verification development for the pipedetect pose-detection pipeline.

The Python sources are embedded shallowly:
* floats become rationals (`ℚ`),
* fallible code (pydantic validators, functions that raise typed errors)
  becomes `Except String`-valued functions,
* filesystem side effects (frame writes, overlay writes, directory creation)
  become explicit event lists / state records so that theorems can speak
  about which files a run writes and under which ids,
* the external MediaPipe estimator is abstracted by attaching each frame's
  detection outcome (`Option (List LandmarkPoint)`) to the frame itself.

Each definition mirrors one Python function and is named after it.
-/

namespace PipeDetect

/-! Data model, from `src/pipedetect/core/models.py`. -/

/-- One pose landmark (`LandmarkPoint` in `core/models.py`): normalized
coordinates plus visibility / presence scores. -/
structure LandmarkPoint where
  x : ℚ
  y : ℚ
  z : ℚ
  visibility : ℚ
  presence : ℚ
deriving DecidableEq, Repr

/-- Complete detection result for one frame (`PoseResult` in `core/models.py`). -/
structure PoseResult where
  frame_id : ℕ
  timestamp : ℚ
  landmarks : List LandmarkPoint
  confidence : ℚ
  source_file : String
deriving DecidableEq, Repr

/-- The pydantic `field_validator` on `PoseResult.confidence`:
raises unless `0.0 <= v <= 1.0`, and returns `v` unchanged otherwise. -/
def validate_confidence (v : ℚ) : Except String ℚ :=
  if 0 ≤ v ∧ v ≤ 1 then Except.ok v else Except.error "Confidence must be between 0 and 1"

/-- Construction of a `PoseResult`, running the confidence validator exactly
as pydantic does when the Python class is instantiated. -/
def mkPoseResult (frame_id : ℕ) (timestamp : ℚ) (landmarks : List LandmarkPoint)
    (confidence : ℚ) (source_file : String) : Except String PoseResult :=
  match validate_confidence confidence with
  | Except.ok v => Except.ok ⟨frame_id, timestamp, landmarks, v, source_file⟩
  | Except.error e => Except.error e

/-- Statistics of a processing session (`ProcessingStats` in `core/models.py`).
`failed_frames` is an unconstrained Python `int`, hence `ℤ`; timestamps are
abstracted to rationals. -/
structure ProcessingStats where
  total_frames : ℕ
  processed_frames : ℕ
  failed_frames : ℤ
  processing_time : ℚ
  fps : ℚ
  start_time : ℚ
  end_time : ℚ
deriving DecidableEq, Repr

/-- The `success_rate` property of `ProcessingStats`: guards the division
by returning `0.0` when `total_frames == 0`. -/
def ProcessingStats.success_rate (s : ProcessingStats) : ℚ :=
  if s.total_frames = 0 then 0 else (s.processed_frames : ℚ) / (s.total_frames : ℚ)

/-! Detection, from `src/pipedetect/detection/pose_detector.py`.
The MediaPipe call `detect_pose` is abstracted by its outcome. -/

/-- Confidence computation used by `PoseDetector.detect_single_image` and by
the video loop: `sum(lm.visibility for lm in landmarks) / len(landmarks)`. -/
def meanVisibility (landmarks : List LandmarkPoint) : ℚ :=
  (landmarks.map (fun lm => lm.visibility)).sum / (landmarks.length : ℚ)

/-- The model of `PoseDetector.detect_single_image`: given the estimator's
outcome for the image, either no pose (returns `none`) or a `PoseResult`
with `timestamp = 0.0` and confidence the mean landmark visibility. -/
def detect_single_image (detection : Option (List LandmarkPoint)) (frame_id : ℕ)
    (source_file : String) : Except String (Option PoseResult) :=
  match detection with
  | none => Except.ok none
  | some landmarks =>
    match mkPoseResult frame_id 0 landmarks (meanVisibility landmarks) source_file with
    | Except.ok r => Except.ok (some r)
    | Except.error e => Except.error e

/-! Input validation, from `src/pipedetect/io/validators.py`. -/

/-- Abstraction of a filesystem path for `InputValidator`: it either does not
exist, is a regular file with a suffix, is a directory, or exists but is
neither (socket, broken symlink, ...). -/
inductive PathModel
  | absent
  | file (suffix : String)
  | dir
  | otherPresent
deriving DecidableEq, Repr

/-- Model of Python `Path.exists()`. -/
def PathModel.path_exists : PathModel → Bool
  | PathModel.absent => false
  | _ => true

/-- Model of Python `Path.is_file()`. -/
def PathModel.is_file : PathModel → Bool
  | PathModel.file _ => true
  | _ => false

/-- Model of Python `Path.is_dir()`. -/
def PathModel.is_dir : PathModel → Bool
  | PathModel.dir => true
  | _ => false

/-- Model of Python `Path.suffix` (empty for non-files). -/
def PathModel.suffix : PathModel → String
  | PathModel.file ext => ext
  | _ => ""

/-- Model of Python `str.lower()` on one character (the extensions involved
are ASCII, where lowering adds 32 to an upper-case code point). -/
def charLower (c : Char) : Char :=
  if 'A' ≤ c ∧ c ≤ 'Z' then Char.ofNat (c.toNat + 32) else c

/-- Model of Python `str.lower()`. -/
def strLower (s : String) : String := ⟨s.data.map charLower⟩

/-- InputValidator.SUPPORTED_IMAGE_EXTENSIONS. -/
def SUPPORTED_IMAGE_EXTENSIONS : List String :=
  [".jpg", ".jpeg", ".png", ".bmp", ".tiff", ".tif", ".webp"]

/-- InputValidator.SUPPORTED_VIDEO_EXTENSIONS. -/
def SUPPORTED_VIDEO_EXTENSIONS : List String :=
  [".mp4", ".avi", ".mov", ".mkv", ".wmv", ".flv", ".webm", ".m4v"]

/-- InputValidator.is_image_file: requires `is_file()` and a suffix whose
lower-casing is in the image allow-list. -/
def is_image_file (p : PathModel) : Bool :=
  p.is_file && decide (strLower p.suffix ∈ SUPPORTED_IMAGE_EXTENSIONS)

/-- InputValidator.is_video_file: requires `is_file()` and a suffix whose
lower-casing is in the video allow-list. -/
def is_video_file (p : PathModel) : Bool :=
  p.is_file && decide (strLower p.suffix ∈ SUPPORTED_VIDEO_EXTENSIONS)

/-- The three input kinds `InputValidator.get_input_type` can return. -/
inductive InputType
  | image
  | video
  | directory
deriving DecidableEq, Repr

/-- InputValidator.get_input_type: file → image/video by allow-list, else
error; directory → directory; anything else → error. -/
def get_input_type (p : PathModel) : Except String InputType :=
  if p.is_file then
    if is_image_file p then Except.ok InputType.image
    else if is_video_file p then Except.ok InputType.video
    else Except.error "Unsupported file format"
  else if p.is_dir then Except.ok InputType.directory
  else Except.error "Input is neither file nor directory"

/-- InputValidator.validate_input_path: errors when the path does not exist. -/
def validate_input_path (p : PathModel) : Except String PathModel :=
  if p.path_exists then Except.ok p else Except.error "Input path does not exist"

/-- The classification performed at the top of `PoseProcessor.process_input`:
`validate_input_path` followed by `get_input_type`. -/
def classify_input (p : PathModel) : Except String InputType :=
  match validate_input_path p with
  | Except.ok q => get_input_type q
  | Except.error e => Except.error e

/-- One entry of an image directory, as seen by
`InputValidator.validate_image_directory` and `_process_image_directory`:
its filename, whether it is a regular file, its suffix, the estimator's
outcome on it, and whether `cv2.imread` succeeds on it. -/
structure DirEntry where
  name : String
  isFile : Bool
  suffix : String
  detection : Option (List LandmarkPoint)
  readable : Bool
deriving DecidableEq, Repr

/-- InputValidator.is_image_file applied to a directory entry. -/
def DirEntry.is_image_file (e : DirEntry) : Bool :=
  e.isFile && decide (strLower e.suffix ∈ SUPPORTED_IMAGE_EXTENSIONS)

/-- Lexicographic comparison of character lists: the order Python's
`sorted` uses on path strings. -/
def lexLe : List Char → List Char → Bool
  | [], _ => true
  | _ :: _, [] => false
  | a :: as, b :: bs => if a < b then true else if b < a then false else lexLe as bs

/-- Filename order on directory entries, as used by `sorted(image_files)`. -/
def nameLe (a b : DirEntry) : Prop := lexLe a.name.data b.name.data = true

instance : DecidableRel nameLe := fun _ _ => instDecidableEqBool _ _

/-- Boolean discriminator telling whether an `Except` computation raised. -/
def exceptIsError : Except ε α → Bool
  | Except.error _ => true
  | Except.ok _ => false

instance : IsTotal DirEntry nameLe where
  total a b := by
    suffices h : ∀ x y : List Char, lexLe x y = true ∨ lexLe y x = true from h _ _
    intro x
    induction x with
    | nil => intro y; exact Or.inl rfl
    | cons c cs ih =>
      intro y
      cases y with
      | nil => exact Or.inr rfl
      | cons d ds =>
        rcases lt_trichotomy c d with hcd | hcd | hcd
        · exact Or.inl (by simp [lexLe, hcd])
        · subst hcd
          rcases ih ds with h | h
          · exact Or.inl (by simp [lexLe, lt_irrefl, h])
          · exact Or.inr (by simp [lexLe, lt_irrefl, h])
        · exact Or.inr (by simp [lexLe, hcd])

instance : IsTrans DirEntry nameLe where
  trans a b c := by
    suffices h : ∀ x y z : List Char,
        lexLe x y = true → lexLe y z = true → lexLe x z = true from h _ _ _
    intro x
    induction x with
    | nil => intro y z _ _; rfl
    | cons u us ih =>
      intro y z hxy hyz
      cases y with
      | nil => simp [lexLe] at hxy
      | cons v vs =>
        cases z with
        | nil => simp [lexLe] at hyz
        | cons w ws =>
          rcases lt_trichotomy u v with huv | huv | huv
          · rcases lt_trichotomy v w with hvw | hvw | hvw
            · simp [lexLe, lt_trans huv hvw]
            · subst hvw; simp [lexLe, huv]
            · simp [lexLe, hvw, lt_asymm hvw] at hyz
          · subst huv
            rcases lt_trichotomy u w with huw | huw | huw
            · simp [lexLe, huw]
            · subst huw
              simp only [lexLe, lt_irrefl, if_false] at hxy hyz ⊢
              exact ih vs ws hxy hyz
            · simp [lexLe, huw, lt_asymm huw] at hyz
          · simp [lexLe, huv, lt_asymm huv] at hxy

/-- InputValidator.validate_image_directory: keeps the entries passing
`is_image_file`, fails when none remain, and returns them sorted by
filename (Python `sorted` is a stable sort; `insertionSort` is too). -/
def validate_image_directory (isDir : Bool) (dirName : String) (entries : List DirEntry) :
    Except String (List DirEntry) :=
  if isDir = false then Except.error ("Not a directory: " ++ dirName)
  else
    let image_files := entries.filter DirEntry.is_image_file
    if image_files = [] then Except.error ("No supported image files found in: " ++ dirName)
    else Except.ok (List.insertionSort nameLe image_files)

/-! Exporters, from `src/pipedetect/io/exporters.py`. -/

/-- One CSV field: the writer emits frame ids, numbers and strings. -/
inductive CsvCell
  | natCell (n : ℕ)
  | numCell (q : ℚ)
  | strCell (s : String)
deriving DecidableEq, Repr

/-- The CSV header of `CSVExporter.export`: four fixed columns followed by
five columns for each of the 33 landmark slots. -/
def csvHeader : List String :=
  ["frame_id", "timestamp", "confidence", "source_file"] ++
  (List.range 33).flatMap (fun i =>
    ["landmark_" ++ toString i ++ "_x",
     "landmark_" ++ toString i ++ "_y",
     "landmark_" ++ toString i ++ "_z",
     "landmark_" ++ toString i ++ "_visibility",
     "landmark_" ++ toString i ++ "_presence"])

/-- The five cells `CSVExporter.export` writes for landmark slot `i` of a
result: the landmark's fields when `i < len(result.landmarks)`, zeros
otherwise. -/
def landmarkCells (r : PoseResult) (i : ℕ) : List CsvCell :=
  if h : i < r.landmarks.length then
    let lm := r.landmarks.get ⟨i, h⟩
    [CsvCell.numCell lm.x, CsvCell.numCell lm.y, CsvCell.numCell lm.z,
     CsvCell.numCell lm.visibility, CsvCell.numCell lm.presence]
  else
    [CsvCell.numCell 0, CsvCell.numCell 0, CsvCell.numCell 0,
     CsvCell.numCell 0, CsvCell.numCell 0]

/-- One CSV data row of `CSVExporter.export`: the four fixed fields followed
by the 33 landmark slots (`for i in range(33)`). -/
def csvRow (r : PoseResult) : List CsvCell :=
  [CsvCell.natCell r.frame_id, CsvCell.numCell r.timestamp, CsvCell.numCell r.confidence,
   CsvCell.strCell r.source_file] ++
  (List.range 33).flatMap (landmarkCells r)

/-- CSVExporter.export: returns early (writes no file, `none`) for empty
results, otherwise the written file is the header row plus one row per
result. -/
def csvExport (results : List PoseResult) : Option (List (List CsvCell)) :=
  if results = [] then none
  else some ((csvHeader.map CsvCell.strCell) :: results.map csvRow)

/-- The JSON document `JSONExporter.export` writes: a metadata object built
from the stats and one entry per result (serialization of each result is
faithful, so entries are kept as the results themselves). -/
structure JsonDoc where
  metadata : ProcessingStats
  results : List PoseResult
deriving DecidableEq, Repr

/-- JSONExporter.export: unconditionally builds and writes the document;
empty results yield a document whose `results` array is empty. -/
def jsonExport (results : List PoseResult) (stats : ProcessingStats) : JsonDoc :=
  { metadata := stats, results := results }

/-- PoseProcessor._export_results: only when `results` is non-empty does it
invoke the JSON exporter and then the CSV exporter; otherwise it logs a
warning and writes nothing. The pair is (JSON file written, CSV file
written). -/
def export_results (results : List PoseResult) (stats : ProcessingStats) :
    Option JsonDoc × Option (List (List CsvCell)) :=
  if results = [] then (none, none)
  else (some (jsonExport results stats), csvExport results)

/-! Output-path bookkeeping, from `src/pipedetect/io/file_manager.py`,
reduced to the one observable C4 needs: whether the per-run output
directories have been created. -/

/-- Filesystem state observed by the pipeline model. -/
structure FSState where
  dirsCreated : Bool
deriving DecidableEq, Repr

/-- FileManager.create_output_paths: computes the four output paths and
eagerly creates the directories (`paths.create_directories()`). -/
def create_output_paths (s : FSState) : FSState := { s with dirsCreated := true }

/-! Overlay rendering, from `src/pipedetect/visualization/overlay_renderer.py`.
Each cv2 drawing call on the copied image becomes one `DrawOp` recorded on a
`Canvas` whose `base` is the untouched input image. -/

/-- OverlayRenderer.POSE_CONNECTIONS: the static topology table of landmark
index pairs. -/
def POSE_CONNECTIONS : List (ℕ × ℕ) :=
  [(0, 1), (1, 2), (2, 3), (3, 7),
   (0, 4), (4, 5), (5, 6), (6, 8),
   (9, 10),
   (11, 12), (11, 13), (13, 15), (15, 17), (15, 19), (15, 21), (17, 19),
   (12, 14), (14, 16), (16, 18), (16, 20), (16, 22), (18, 20),
   (11, 23), (12, 24), (23, 24),
   (23, 25), (25, 27), (27, 29), (27, 31), (29, 31),
   (24, 26), (26, 28), (28, 30), (28, 32), (30, 32)]

/-- Python `int(...)` truncation toward zero on a rational. -/
def pyInt (q : ℚ) : ℤ := q.num.tdiv (q.den : ℤ)

/-- One cv2 drawing call made by the renderer, instrumented with the landmark
indices it refers to. -/
inductive DrawOp
  | lineOp (startIdx endIdx : ℕ) (p q : ℤ × ℤ) (color : ℤ × ℤ × ℤ) (thickness : ℕ)
  | circleOp (idx : ℕ) (p : ℤ × ℤ) (size : ℕ) (color : ℤ × ℤ × ℤ)
  | textOp (s : String) (p : ℤ × ℤ)
deriving DecidableEq, Repr

/-- An image: its dimensions and abstract pixel content. -/
structure Image where
  width : ℕ
  height : ℕ
  data : ℕ
deriving DecidableEq, Repr

/-- The renderer's result: the untouched input image (`base`, the code only
draws on `image.copy()`) and the drawing calls applied to the copy. -/
structure Canvas where
  base : Image
  ops : List DrawOp
deriving DecidableEq, Repr

/-- The constructor arguments of `OverlayRenderer.__init__`. -/
structure RendererConfig where
  landmark_color : ℤ × ℤ × ℤ
  connection_color : ℤ × ℤ × ℤ
  landmark_size : ℕ
  connection_thickness : ℕ
deriving DecidableEq, Repr

/-- Default renderer configuration from `OverlayRenderer.__init__`. -/
def defaultRenderer : RendererConfig :=
  { landmark_color := (0, 255, 0), connection_color := (255, 0, 0),
    landmark_size := 3, connection_thickness := 2 }

/-- Pairs every list element with its index, starting at `k` (the model of
Python `enumerate`). -/
def idxFrom (k : ℕ) : List α → List (ℕ × α)
  | [] => []
  | a :: l => (k, a) :: idxFrom (k + 1) l

/-- The `pixel_landmarks` list built by `render_pose_overlay`: `none` for a
landmark below the visibility threshold, otherwise its pixel coordinates
(normalized coordinates scaled by image width/height and truncated) plus its
visibility. -/
def pixelLandmarks (image : Image) (landmarks : List LandmarkPoint) (min_visibility : ℚ) :
    List (Option (ℤ × ℤ × ℚ)) :=
  landmarks.map (fun lm =>
    if min_visibility ≤ lm.visibility then
      some (pyInt (lm.x * (image.width : ℚ)), pyInt (lm.y * (image.height : ℚ)), lm.visibility)
    else none)

/-- The connection-drawing pass of `render_pose_overlay`: a line per entry of
`POSE_CONNECTIONS` whose two indices are in range and whose both pixel
landmarks survived the visibility filter. -/
def connectionOps (cfg : RendererConfig) (pl : List (Option (ℤ × ℤ × ℚ))) : List DrawOp :=
  POSE_CONNECTIONS.flatMap (fun c =>
    match pl[c.1]?, pl[c.2]? with
    | some (some s), some (some e) =>
      [DrawOp.lineOp c.1 c.2 (s.1, s.2.1) (e.1, e.2.1) cfg.connection_color
        cfg.connection_thickness]
    | _, _ => [])

/-- The landmark-drawing pass of `render_pose_overlay`: a circle per surviving
pixel landmark with color intensity scaled by visibility, plus the optional
index text when `landmark_size > 3`. -/
def landmarkOps (cfg : RendererConfig) (pl : List (Option (ℤ × ℤ × ℚ))) : List DrawOp :=
  (idxFrom 0 pl).flatMap (fun p =>
    match p.2 with
    | some (x, y, vis) =>
      let color_intensity : ℤ := pyInt (255 * vis)
      let adjusted := (min cfg.landmark_color.1 color_intensity,
                       min cfg.landmark_color.2.1 color_intensity,
                       min cfg.landmark_color.2.2 color_intensity)
      DrawOp.circleOp p.1 (x, y) cfg.landmark_size adjusted ::
        (if 3 < cfg.landmark_size then [DrawOp.textOp (toString p.1) (x + 5, y - 5)] else [])
    | none => [])

/-- OverlayRenderer.render_pose_overlay: returns a copy of the input image
(empty landmark list short-circuits to a bare copy); otherwise draws
connections and then landmark points on the copy. -/
def render_pose_overlay (cfg : RendererConfig) (image : Image)
    (landmarks : List LandmarkPoint) (draw_landmarks draw_connections : Bool)
    (min_visibility : ℚ) : Canvas :=
  if landmarks = [] then ⟨image, []⟩
  else
    let pl := pixelLandmarks image landmarks min_visibility
    ⟨image,
     (if draw_connections then connectionOps cfg pl else []) ++
     (if draw_landmarks then landmarkOps cfg pl else [])⟩

/-! The orchestrator loops, from `src/pipedetect/cli/processor.py`. -/

/-- One frame read from a video: abstract pixel content plus the estimator's
outcome on it. -/
structure VFrame where
  image : ℕ
  detection : Option (List LandmarkPoint)
deriving DecidableEq, Repr

/-- One file write performed by the video loop (`FileManager.save_frame` into
the frames directory, `FileManager.save_overlay_frame` into the overlay
directory; `overlaid = false` records the plain no-pose copy). -/
inductive VWrite
  | frameWrite (frame_id : ℕ) (image : ℕ)
  | overlayWrite (frame_id : ℕ) (image : ℕ) (overlaid : Bool)
deriving DecidableEq, Repr

/-- Discriminator for frames-directory writes. -/
def VWrite.isFrameWrite : VWrite → Bool
  | VWrite.frameWrite _ _ => true
  | _ => false

/-- The while-loop of `PoseProcessor._process_video`, from a given value of
`saved_frame_counter`: per read frame it increments the profiler count,
writes the raw frame (when `save_frames`), runs detection, on success builds
the `PoseResult` with `frame_id = saved_frame_counter` and
`timestamp = saved_frame_counter / fps` and writes the overlay (when
`save_overlays`), on failure writes the plain frame to the overlay directory
(when `save_overlays`), then advances the counter. Returns the accumulated
results, the writes, and the number of profiler increments. -/
def process_video_loop (save_frames save_overlays : Bool) (fps : ℚ) (src : String) :
    List VFrame → ℕ → Except String (List PoseResult × List VWrite × ℕ)
  | [], _ => Except.ok ([], [], 0)
  | f :: rest, counter =>
    let frameEv := if save_frames then [VWrite.frameWrite counter f.image] else []
    match f.detection with
    | some lms =>
      match mkPoseResult counter ((counter : ℚ) / fps) lms (meanVisibility lms) src with
      | Except.error e => Except.error e
      | Except.ok result =>
        let ovEv := if save_overlays then [VWrite.overlayWrite counter f.image true] else []
        match process_video_loop save_frames save_overlays fps src rest (counter + 1) with
        | Except.error e => Except.error e
        | Except.ok (results, events, counted) =>
          Except.ok (result :: results, frameEv ++ ovEv ++ events, counted + 1)
    | none =>
      let ovEv := if save_overlays then [VWrite.overlayWrite counter f.image false] else []
      match process_video_loop save_frames save_overlays fps src rest (counter + 1) with
      | Except.error e => Except.error e
      | Except.ok (results, events, counted) =>
        Except.ok (results, frameEv ++ ovEv ++ events, counted + 1)

/-- One file write performed in image modes (`FileManager.save_image_copy`
into the frames directory, `FileManager.save_overlay_frame` into the overlay
directory), keyed by the saved-frame counter and the source filename. -/
inductive DWrite
  | frameWrite (save_id : ℕ) (name : String)
  | overlayWrite (save_id : ℕ) (name : String)
deriving DecidableEq, Repr

/-- The for-loop of `PoseProcessor._process_image_directory`, from given
values of `frame_id` (enumeration index over the sorted candidate list) and
`saved_frame_counter`: detection uses `frame_id`; writes use the counter,
which advances only on detection success; the overlay write additionally
requires `cv2.imread` to succeed. Returns the results, the writes, and the
number of profiler increments. -/
def process_dir_loop (save_frames save_overlays : Bool) :
    List DirEntry → ℕ → ℕ → Except String (List PoseResult × List DWrite × ℕ)
  | [], _, _ => Except.ok ([], [], 0)
  | f :: rest, frame_id, counter =>
    match detect_single_image f.detection frame_id f.name with
    | Except.error e => Except.error e
    | Except.ok none =>
      match process_dir_loop save_frames save_overlays rest (frame_id + 1) counter with
      | Except.error e => Except.error e
      | Except.ok (results, events, counted) => Except.ok (results, events, counted + 1)
    | Except.ok (some result) =>
      let ev := (if save_frames then [DWrite.frameWrite counter f.name] else []) ++
                (if save_overlays && f.readable then [DWrite.overlayWrite counter f.name] else [])
      match process_dir_loop save_frames save_overlays rest (frame_id + 1) (counter + 1) with
      | Except.error e => Except.error e
      | Except.ok (results, events, counted) =>
        Except.ok (result :: results, ev ++ events, counted + 1)

/-- PoseProcessor._process_single_image: one detection with `frame_id = 0`,
one profiler increment, writes only on success (the overlay write requires
`cv2.imread` to succeed). -/
def process_single_image (save_frames save_overlays : Bool)
    (detection : Option (List LandmarkPoint)) (readable : Bool) (src : String) :
    Except String (List PoseResult × List DWrite × ℕ) :=
  match detect_single_image detection 0 src with
  | Except.error e => Except.error e
  | Except.ok none => Except.ok ([], [], 1)
  | Except.ok (some result) =>
    let ev := (if save_frames then [DWrite.frameWrite 0 src] else []) ++
              (if save_overlays && readable then [DWrite.overlayWrite 0 src] else [])
    Except.ok ([result], ev, 1)

/-- The directory-mode path through `PoseProcessor.process_input`: the input
was classified as a directory, output paths are created (directories
eagerly), and only then does `_process_image_directory` validate the
directory contents, which can raise `ValidationError`. The returned state
records whether the output directories had been created when the run ended. -/
def process_input_directory (save_frames save_overlays : Bool) (dirName : String)
    (entries : List DirEntry) (s : FSState) :
    Except String (List PoseResult) × FSState :=
  let s1 := create_output_paths s
  match validate_image_directory true dirName entries with
  | Except.error e => (Except.error e, s1)
  | Except.ok files =>
    match process_dir_loop save_frames save_overlays files 0 0 with
    | Except.error e => (Except.error e, s1)
    | Except.ok (results, _, _) => (Except.ok results, s1)

/-- The `ProcessingStats` constructed at the end of
`PoseProcessor.process_input`: totals from the profiler's frame count,
processed from `len(results)`, failed as their difference. -/
def statsOfRun (counted resultCount : ℕ)
    (processing_time fps start_time end_time : ℚ) : ProcessingStats :=
  { total_frames := counted
    processed_frames := resultCount
    failed_frames := (counted : ℤ) - (resultCount : ℤ)
    processing_time := processing_time
    fps := fps
    start_time := start_time
    end_time := end_time }

/-! Helper lemmas shared by several claim theorems. -/

/-- Characterization of successful `PoseResult` construction: pydantic accepts
exactly the in-range confidences and stores all fields unchanged. -/
theorem mkPoseResult_ok_iff (frame_id : ℕ) (ts : ℚ) (lms : List LandmarkPoint)
    (c : ℚ) (src : String) (r : PoseResult) :
    mkPoseResult frame_id ts lms c src = Except.ok r ↔
      0 ≤ c ∧ c ≤ 1 ∧ r = ⟨frame_id, ts, lms, c, src⟩ := by
  by_cases h : 0 ≤ c ∧ c ≤ 1
  · simp [mkPoseResult, validate_confidence, h, eq_comm]
  · simp only [mkPoseResult, validate_confidence, if_neg h]
    constructor
    · intro he; exact Except.noConfusion he
    · rintro ⟨h1, h2, -⟩; exact absurd ⟨h1, h2⟩ h

/-! Claim C8. -/

/-- C8: for every `ProcessingStats`, `success_rate` equals
`processed_frames / total_frames` when `total_frames > 0` and is exactly `0`
when `total_frames = 0`. -/
theorem C8_success_rate_division_guard (s : ProcessingStats) :
    (s.total_frames = 0 → s.success_rate = 0) ∧
    (0 < s.total_frames →
      s.success_rate = (s.processed_frames : ℚ) / (s.total_frames : ℚ)) := by
  constructor
  · intro h; simp [ProcessingStats.success_rate, h]
  · intro h; simp [ProcessingStats.success_rate, Nat.pos_iff_ne_zero.mp h]

/-- Witness for C8, evaluating `success_rate` on two concrete statistics
records, one with zero and one with four total frames. -/
theorem C8_success_rate_division_guard_witness :
    (statsOfRun 0 0 0 0 0 0).success_rate = 0 ∧
    (statsOfRun 4 3 0 0 0 0).success_rate = ((3 : ℕ) : ℚ) / ((4 : ℕ) : ℚ) := by
  constructor
  · exact (C8_success_rate_division_guard _).1 rfl
  · exact (C8_success_rate_division_guard _).2 (by decide)

/-! Claim C5. -/

/-- C5: a `PoseResult` built from a detection stores as confidence the mean
landmark visibility; construction succeeds exactly for confidences in
`[0, 1]`, storing the value unchanged, and raises exactly for confidences
outside `[0, 1]`. -/
theorem C5_confidence_validation (frame_id : ℕ) (ts : ℚ) (lms : List LandmarkPoint)
    (c : ℚ) (src : String) (r : PoseResult) :
    (mkPoseResult frame_id ts lms c src = Except.ok r ↔
      0 ≤ c ∧ c ≤ 1 ∧ r = ⟨frame_id, ts, lms, c, src⟩) ∧
    (exceptIsError (mkPoseResult frame_id ts lms c src) = true ↔ ¬ (0 ≤ c ∧ c ≤ 1)) ∧
    (lms ≠ [] → ∀ r2, detect_single_image (some lms) frame_id src = Except.ok (some r2) →
      r2.confidence = meanVisibility lms) := by
  refine ⟨mkPoseResult_ok_iff frame_id ts lms c src r, ?_, ?_⟩
  · unfold mkPoseResult validate_confidence
    by_cases h : 0 ≤ c ∧ c ≤ 1
    · simp [h, exceptIsError]
    · simp [h, exceptIsError]
  · intro _ r2 hdet
    cases hmk : mkPoseResult frame_id 0 lms (meanVisibility lms) src with
    | error e => simp [detect_single_image, hmk] at hdet
    | ok r3 =>
      obtain ⟨-, -, h4⟩ :=
        (mkPoseResult_ok_iff frame_id 0 lms (meanVisibility lms) src r3).mp hmk
      subst h4
      simp only [detect_single_image, hmk, Except.ok.injEq, Option.some.injEq] at hdet
      rw [← hdet]

/-- Witness for C5: a concrete in-range construction, a concrete rejected
construction, and a concrete detection whose stored confidence is the mean
visibility. -/
theorem C5_confidence_validation_witness :
    mkPoseResult 7 0 [] (1/2) "a.jpg" = Except.ok ⟨7, 0, [], 1/2, "a.jpg"⟩ ∧
    exceptIsError (mkPoseResult 7 0 [] 2 "a.jpg") = true ∧
    (⟨0, 0, [⟨0, 0, 0, 1, 1⟩], 1, "b.jpg"⟩ : PoseResult).confidence =
      meanVisibility [⟨0, 0, 0, 1, 1⟩] := by
  have hm : meanVisibility [⟨0, 0, 0, 1, 1⟩] = 1 := by
    norm_num [meanVisibility]
  refine ⟨?_, ?_, ?_⟩
  · exact (C5_confidence_validation 7 0 [] (1/2) "a.jpg" ⟨7, 0, [], 1/2, "a.jpg"⟩).1.mpr
      ⟨by norm_num, by norm_num, rfl⟩
  · exact (C5_confidence_validation 7 0 [] 2 "a.jpg" ⟨7, 0, [], 2, "a.jpg"⟩).2.1.mpr
      (by norm_num)
  · exact (C5_confidence_validation 0 0 [⟨0, 0, 0, 1, 1⟩] 1 "b.jpg"
      ⟨0, 0, [⟨0, 0, 0, 1, 1⟩], 1, "b.jpg"⟩).2.2 (by simp)
      ⟨0, 0, [⟨0, 0, 0, 1, 1⟩], 1, "b.jpg"⟩
      (by simp [detect_single_image, mkPoseResult, validate_confidence, hm])

/-! Claim C1. -/

/-- C1 counterexample: on a pipeline run whose accumulated result list is
empty, `_export_results` skips the JSON exporter entirely, so no JSON file is
produced — contradicting the claim that the JSON exporter always writes a
file (with an empty results array) for every run. -/
theorem C1_counterexample :
    (export_results [] (statsOfRun 0 0 0 0 0 0)).1 = none ∧
    (export_results [] (statsOfRun 0 0 0 0 0 0)).2 = none := ⟨rfl, rfl⟩

/-- C1 amended: the JSON exporter component, whenever invoked, always
produces a document (an empty result list yields an empty results array) and
the CSV exporter writes nothing for an empty result list; however,
`_export_results` invokes neither exporter when the result list is empty, so
such a run writes no JSON file either. For a non-empty result list both
files are written. -/
theorem C1_export_gating (results : List PoseResult) (stats : ProcessingStats) :
    ((jsonExport results stats).results = results) ∧
    ((jsonExport [] stats).results = []) ∧
    (csvExport ([] : List PoseResult) = none) ∧
    (results = [] → export_results results stats = (none, none)) ∧
    (results ≠ [] →
      (export_results results stats).1 = some (jsonExport results stats) ∧
      (export_results results stats).2 =
        some ((csvHeader.map CsvCell.strCell) :: results.map csvRow)) := by
  refine ⟨rfl, rfl, rfl, ?_, ?_⟩
  · intro h; simp [export_results, h]
  · intro h; simp [export_results, csvExport, h]

/-- Witness for C1 amended: the gate at a concrete empty run and a concrete
one-result run. -/
theorem C1_export_gating_witness :
    export_results [] (statsOfRun 0 0 0 0 0 0) = (none, none) ∧
    (export_results [⟨0, 0, [], 0, "f"⟩] (statsOfRun 1 1 0 0 0 0)).1 =
      some (jsonExport [⟨0, 0, [], 0, "f"⟩] (statsOfRun 1 1 0 0 0 0)) := by
  constructor
  · exact (C1_export_gating [] _).2.2.2.1 rfl
  · exact ((C1_export_gating [⟨0, 0, [], 0, "f"⟩] _).2.2.2.2 (by simp)).1

/-! Claim C4. -/

/-- C4 counterexample: running the pipeline on a directory with zero
supported image files does fail with the validation error, but the output
directories have already been created when the error is raised
(`create_output_paths` runs before `_process_image_directory` validates the
directory contents) — contradicting the claim that no output directory has
been created at that time. -/
theorem C4_counterexample :
    exceptIsError (process_input_directory true true "imgs" ([] : List DirEntry)
      ⟨false⟩).1 = true ∧
    (process_input_directory true true "imgs" ([] : List DirEntry) ⟨false⟩).2.dirsCreated
      = true := ⟨rfl, rfl⟩

/-- C4 amended: for every run on a directory containing zero supported image
files, the run fails with the `ValidationError` from
`validate_image_directory`, but the output directories (frames, overlay and
export parents) have already been created before the error is raised, because
`create_output_paths` runs eagerly right after input classification. -/
theorem C4_empty_directory_dirs_created (save_frames save_overlays : Bool)
    (dirName : String) (entries : List DirEntry) (s : FSState)
    (h : entries.filter DirEntry.is_image_file = []) :
    (process_input_directory save_frames save_overlays dirName entries s).1 =
      Except.error ("No supported image files found in: " ++ dirName) ∧
    (process_input_directory save_frames save_overlays dirName entries s).2.dirsCreated
      = true := by
  unfold process_input_directory validate_image_directory create_output_paths
  simp [h]

/-- Witness for C4 amended at a concrete directory listing containing one
non-image file. -/
theorem C4_empty_directory_dirs_created_witness :
    (process_input_directory true true "imgs"
      [⟨"notes.txt", true, ".txt", none, true⟩] ⟨false⟩).1 =
      Except.error ("No supported image files found in: " ++ "imgs") ∧
    (process_input_directory true true "imgs"
      [⟨"notes.txt", true, ".txt", none, true⟩] ⟨false⟩).2.dirsCreated = true :=
  C4_empty_directory_dirs_created true true "imgs"
    [⟨"notes.txt", true, ".txt", none, true⟩] ⟨false⟩ (by decide)

/-! Claim C6. -/

/-- Each landmark slot contributes exactly five CSV cells, present or not. -/
theorem landmarkCells_length (r : PoseResult) (i : ℕ) : (landmarkCells r i).length = 5 := by
  unfold landmarkCells
  split <;> rfl

/-- Length of a flat-mapped list whose blocks have constant size. -/
theorem flatMap_const_length {α β : Type} (f : α → List β) (n : ℕ)
    (hf : ∀ a, (f a).length = n) :
    ∀ l : List α, (l.flatMap f).length = n * l.length := by
  intro l
  induction l with
  | nil => simp
  | cons a t ih =>
    simp only [List.flatMap_cons, List.length_append, hf, ih, List.length_cons]
    ring

/-- Every CSV data row has exactly `4 + 33*5 = 169` cells. -/
theorem csvRow_length (r : PoseResult) : (csvRow r).length = 169 := by
  unfold csvRow
  rw [List.length_append,
    flatMap_const_length (landmarkCells r) 5 (landmarkCells_length r) (List.range 33)]
  simp

/-- The CSV header also has exactly 169 cells. -/
theorem csvHeader_length : csvHeader.length = 169 := by
  unfold csvHeader
  rw [List.length_append, flatMap_const_length
    (fun i => ["landmark_" ++ toString i ++ "_x",
      "landmark_" ++ toString i ++ "_y",
      "landmark_" ++ toString i ++ "_z",
      "landmark_" ++ toString i ++ "_visibility",
      "landmark_" ++ toString i ++ "_presence"]) 5 (fun _ => rfl) (List.range 33)]
  simp

/-- Pointwise-equal block functions give equal flat-maps. -/
theorem flatMap_congr_on {α β : Type} (f g : α → List β) :
    ∀ l : List α, (∀ a ∈ l, f a = g a) → l.flatMap f = l.flatMap g := by
  intro l
  induction l with
  | nil => intro _; rfl
  | cons a t ih =>
    intro h
    simp only [List.flatMap_cons]
    rw [h a (List.mem_cons_self a t), ih (fun b hb => h b (List.mem_cons_of_mem a hb))]

/-- For slot indices below 33, the cells written are unchanged by truncating
the landmark list to its first 33 entries. -/
theorem landmarkCells_take33 (r : PoseResult) (i : ℕ) (hi : i < 33) :
    landmarkCells ⟨r.frame_id, r.timestamp, r.landmarks.take 33, r.confidence,
      r.source_file⟩ i = landmarkCells r i := by
  unfold landmarkCells
  dsimp only
  by_cases h : i < r.landmarks.length
  · have h1 : i < (r.landmarks.take 33).length := by
      simp only [List.length_take]
      omega
    rw [dif_pos h1, dif_pos h]
    have h2 : (r.landmarks.take 33).get ⟨i, h1⟩ = r.landmarks.get ⟨i, h⟩ := by
      simp [List.get_eq_getElem, List.getElem_take]
    rw [h2]
  · have h1 : ¬ i < (r.landmarks.take 33).length := by
      simp only [List.length_take]
      omega
    rw [dif_neg h1, dif_neg h]

/-- C6: for every non-empty result list the CSV exporter writes a file whose
header row and every data row have exactly `4 + 33*5 = 169` columns; a
result with fewer than 33 landmarks has each missing slot written as five
zero cells, and landmarks beyond index 32 are ignored (each row depends only
on the first 33 landmarks) — never an error. -/
theorem C6_csv_row_width (results : List PoseResult) (h : results ≠ []) :
    csvExport results = some ((csvHeader.map CsvCell.strCell) :: results.map csvRow) ∧
    (∀ row ∈ (csvHeader.map CsvCell.strCell) :: results.map csvRow, row.length = 169) ∧
    (∀ r : PoseResult, ∀ i : ℕ, r.landmarks.length ≤ i →
      landmarkCells r i = [CsvCell.numCell 0, CsvCell.numCell 0, CsvCell.numCell 0,
        CsvCell.numCell 0, CsvCell.numCell 0]) ∧
    (∀ r : PoseResult,
      csvRow r = csvRow ⟨r.frame_id, r.timestamp, r.landmarks.take 33, r.confidence,
        r.source_file⟩) := by
  refine ⟨by simp [csvExport, h], ?_, ?_, ?_⟩
  · intro row hrow
    rcases List.mem_cons.mp hrow with hr | hr
    · subst hr; simp [csvHeader_length]
    · obtain ⟨r, -, hr⟩ := List.mem_map.mp hr
      rw [← hr]; exact csvRow_length r
  · intro r i hlen
    unfold landmarkCells
    rw [dif_neg (by omega)]
  · intro r
    unfold csvRow
    dsimp only
    rw [flatMap_congr_on (landmarkCells r) _ (List.range 33)
      (fun i hi => (landmarkCells_take33 r i (List.mem_range.mp hi)).symm)]

/-- Witness for C6: the data row of a concrete landmark-free result has 169
columns. -/
theorem C6_csv_row_width_witness :
    (csvRow ⟨0, 0, [], 0, "f"⟩).length = 169 := by
  have h := C6_csv_row_width [⟨0, 0, [], 0, "f"⟩] (by simp)
  exact h.2.1 (csvRow ⟨0, 0, [], 0, "f"⟩) (by simp)

/-! Claim C7. -/

/-- C7: the input classifier returns one of image/video/directory, and fails
exactly when the path does not exist, exists but is neither file nor
directory, or is a file whose case-insensitively compared extension is in
neither the image nor the video allow-list. -/
theorem C7_input_classification (p : PathModel) :
    (∀ t, classify_input p = Except.ok t →
      t = InputType.image ∨ t = InputType.video ∨ t = InputType.directory) ∧
    (exceptIsError (classify_input p) = true ↔
      p = PathModel.absent ∨ p = PathModel.otherPresent ∨
      ∃ ext, p = PathModel.file ext ∧ strLower ext ∉ SUPPORTED_IMAGE_EXTENSIONS ∧
        strLower ext ∉ SUPPORTED_VIDEO_EXTENSIONS) := by
  constructor
  · intro t _
    cases t
    · exact Or.inl rfl
    · exact Or.inr (Or.inl rfl)
    · exact Or.inr (Or.inr rfl)
  · cases p with
    | absent =>
      simp [classify_input, validate_input_path, PathModel.path_exists, exceptIsError]
    | dir =>
      simp [classify_input, validate_input_path, get_input_type, PathModel.path_exists,
        PathModel.is_file, PathModel.is_dir, exceptIsError]
    | otherPresent =>
      simp [classify_input, validate_input_path, get_input_type, PathModel.path_exists,
        PathModel.is_file, PathModel.is_dir, exceptIsError]
    | file ext =>
      by_cases hi : strLower ext ∈ SUPPORTED_IMAGE_EXTENSIONS
      · simp [classify_input, validate_input_path, get_input_type, PathModel.path_exists,
          PathModel.is_file, is_image_file, PathModel.suffix, exceptIsError, hi]
      · by_cases hv : strLower ext ∈ SUPPORTED_VIDEO_EXTENSIONS
        · simp [classify_input, validate_input_path, get_input_type, PathModel.path_exists,
            PathModel.is_file, is_image_file, is_video_file, PathModel.suffix,
            exceptIsError, hi, hv]
        · simp [classify_input, validate_input_path, get_input_type, PathModel.path_exists,
            PathModel.is_file, is_image_file, is_video_file, PathModel.suffix,
            exceptIsError, hi, hv]

/-- Witness for C7: the classifier on a concrete directory and a concrete
file with an unsupported extension. -/
theorem C7_input_classification_witness :
    (InputType.directory = InputType.image ∨ InputType.directory = InputType.video ∨
      InputType.directory = InputType.directory) ∧
    exceptIsError (classify_input (PathModel.file ".xyz")) = true := by
  constructor
  · exact (C7_input_classification PathModel.dir).1 InputType.directory rfl
  · exact (C7_input_classification (PathModel.file ".xyz")).2.mpr
      (Or.inr (Or.inr ⟨".xyz", rfl, by decide, by decide⟩))

/-! Claim C9. -/

/-- Membership in an indexed enumeration determines the underlying entry. -/
theorem mem_idxFrom {α : Type} :
    ∀ (l : List α) (k i : ℕ) (a : α), (i, a) ∈ idxFrom k l →
      ∃ j, i = k + j ∧ l[j]? = some a := by
  intro l
  induction l with
  | nil => intro k i a h; simp [idxFrom] at h
  | cons x xs ih =>
    intro k i a h
    rw [idxFrom] at h
    rcases List.mem_cons.mp h with h | h
    · obtain ⟨hi, ha⟩ := Prod.mk.injEq .. ▸ h
      exact ⟨0, by omega, by simp [ha]⟩
    · obtain ⟨j, hij, hj⟩ := ih (k + 1) i a h
      exact ⟨j + 1, by omega, by simpa using hj⟩

/-- Every op emitted by the connection pass is a line between two indices
whose pixel landmarks both survived the visibility filter. -/
theorem mem_connectionOps (cfg : RendererConfig) (pl : List (Option (ℤ × ℤ × ℚ)))
    (op : DrawOp) (hop : op ∈ connectionOps cfg pl) :
    ∃ s e ps pe, (s, e) ∈ POSE_CONNECTIONS ∧ pl[s]? = some (some ps) ∧
      pl[e]? = some (some pe) ∧
      op = DrawOp.lineOp s e (ps.1, ps.2.1) (pe.1, pe.2.1) cfg.connection_color
        cfg.connection_thickness := by
  obtain ⟨c, hcmem, hc⟩ := List.mem_flatMap.mp hop
  rcases h1 : pl[c.1]? with - | o1
  · rw [h1] at hc; simp at hc
  · rcases o1 with - | ps
    · rw [h1] at hc
      rcases h2 : pl[c.2]? with - | o2 <;> rw [h2] at hc <;> simp at hc
    · rcases h2 : pl[c.2]? with - | o2
      · rw [h1, h2] at hc; simp at hc
      · rcases o2 with - | pe
        · rw [h1, h2] at hc; simp at hc
        · rw [h1, h2] at hc
          simp only [List.mem_singleton] at hc
          exact ⟨c.1, c.2, ps, pe, by simpa using hcmem, h1, h2, hc⟩

/-- Every op emitted by the landmark pass is a circle at a surviving index
(or an index-label text op). -/
theorem mem_landmarkOps (cfg : RendererConfig) (pl : List (Option (ℤ × ℤ × ℚ)))
    (op : DrawOp) (hop : op ∈ landmarkOps cfg pl) :
    ∃ idx pt, pl[idx]? = some (some pt) ∧
      ((∃ sz col, op = DrawOp.circleOp idx (pt.1, pt.2.1) sz col) ∨
        ∃ s p, op = DrawOp.textOp s p) := by
  obtain ⟨pr, hprmem, hpr⟩ := List.mem_flatMap.mp hop
  obtain ⟨i, o⟩ := pr
  obtain ⟨j, hij, hjget⟩ := mem_idxFrom pl 0 i o hprmem
  rcases o with - | t
  · simp at hpr
  · obtain ⟨x, y, vis⟩ := t
    have hj0 : i = j := by omega
    subst hj0
    rcases List.mem_cons.mp hpr with h | h
    · exact ⟨i, (x, y, vis), hjget, Or.inl ⟨cfg.landmark_size, _, by simpa using h⟩⟩
    · by_cases ht : (3 : ℕ) < cfg.landmark_size
      · rw [if_pos ht] at h
        simp only [List.mem_singleton] at h
        exact ⟨i, (x, y, vis), hjget, Or.inr ⟨toString i, (x + 5, y - 5), h⟩⟩
      · rw [if_neg ht] at h
        simp at h

/-- Ops that live in a conditional block live in the block. -/
theorem mem_of_mem_if {α : Type} (b : Bool) (l : List α) (a : α)
    (h : a ∈ (if b then l else [])) : a ∈ l := by
  cases b
  · simp at h
  · simpa using h

/-- C9: the overlay renderer draws on a copy, returning the input image
untouched as the canvas base, and a landmark whose visibility is below the
threshold is skipped entirely: no point is drawn for its index and no
connection line referencing its index (as either endpoint) is drawn. -/
theorem C9_overlay_visibility_skip (cfg : RendererConfig) (image : Image)
    (landmarks : List LandmarkPoint) (dl dc : Bool) (minv : ℚ) :
    (render_pose_overlay cfg image landmarks dl dc minv).base = image ∧
    (∀ i lm, landmarks[i]? = some lm → lm.visibility < minv →
      (∀ p sz col, DrawOp.circleOp i p sz col ∉
        (render_pose_overlay cfg image landmarks dl dc minv).ops) ∧
      (∀ j p q col th, DrawOp.lineOp i j p q col th ∉
        (render_pose_overlay cfg image landmarks dl dc minv).ops) ∧
      (∀ j p q col th, DrawOp.lineOp j i p q col th ∉
        (render_pose_overlay cfg image landmarks dl dc minv).ops)) := by
  constructor
  · unfold render_pose_overlay
    split <;> rfl
  · intro i lm hget hvis
    by_cases hemp : landmarks = []
    · subst hemp; simp at hget
    have hpl : (pixelLandmarks image landmarks minv)[i]? = some none := by
      unfold pixelLandmarks
      rw [List.getElem?_map, hget]
      simp [not_le.mpr hvis]
    have hops : (render_pose_overlay cfg image landmarks dl dc minv).ops =
        (if dc then connectionOps cfg (pixelLandmarks image landmarks minv) else []) ++
        (if dl then landmarkOps cfg (pixelLandmarks image landmarks minv) else []) := by
      rw [render_pose_overlay, if_neg hemp]
    refine ⟨?_, ?_, ?_⟩
    · intro p sz col hmem
      rw [hops] at hmem
      rcases List.mem_append.mp hmem with hm | hm
      · obtain ⟨s, e, ps, pe, -, -, -, heq⟩ :=
          mem_connectionOps cfg _ _ (mem_of_mem_if dc _ _ hm)
        exact DrawOp.noConfusion heq
      · obtain ⟨idx, pt, hidx, hcase⟩ := mem_landmarkOps cfg _ _ (mem_of_mem_if dl _ _ hm)
        rcases hcase with ⟨sz2, col2, heq⟩ | ⟨s2, p2, heq⟩
        · obtain ⟨hi, -⟩ := DrawOp.circleOp.inj heq
          rw [← hi] at hidx
          rw [hpl] at hidx
          exact Option.noConfusion (Option.some.inj hidx)
        · exact DrawOp.noConfusion heq
    · intro j p q col th hmem
      rw [hops] at hmem
      rcases List.mem_append.mp hmem with hm | hm
      · obtain ⟨s, e, ps, pe, -, hs, -, heq⟩ :=
          mem_connectionOps cfg _ _ (mem_of_mem_if dc _ _ hm)
        obtain ⟨hi, -⟩ := DrawOp.lineOp.inj heq
        rw [← hi] at hs
        rw [hpl] at hs
        exact Option.noConfusion (Option.some.inj hs)
      · obtain ⟨idx, pt, hidx, hcase⟩ := mem_landmarkOps cfg _ _ (mem_of_mem_if dl _ _ hm)
        rcases hcase with ⟨sz2, col2, heq⟩ | ⟨s2, p2, heq⟩
        · exact DrawOp.noConfusion heq
        · exact DrawOp.noConfusion heq
    · intro j p q col th hmem
      rw [hops] at hmem
      rcases List.mem_append.mp hmem with hm | hm
      · obtain ⟨s, e, ps, pe, -, -, he, heq⟩ :=
          mem_connectionOps cfg _ _ (mem_of_mem_if dc _ _ hm)
        obtain ⟨-, hi, -⟩ := DrawOp.lineOp.inj heq
        rw [← hi] at he
        rw [hpl] at he
        exact Option.noConfusion (Option.some.inj he)
      · obtain ⟨idx, pt, hidx, hcase⟩ := mem_landmarkOps cfg _ _ (mem_of_mem_if dl _ _ hm)
        rcases hcase with ⟨sz2, col2, heq⟩ | ⟨s2, p2, heq⟩
        · exact DrawOp.noConfusion heq
        · exact DrawOp.noConfusion heq

/-- Witness for C9: a concrete below-threshold landmark draws nothing. -/
theorem C9_overlay_visibility_skip_witness :
    DrawOp.circleOp 0 (0, 0) 3 (0, 0, 0) ∉
      (render_pose_overlay defaultRenderer ⟨64, 48, 0⟩ [⟨0, 0, 0, 0, 1⟩] true true
        (1/2)).ops := by
  have h := (C9_overlay_visibility_skip defaultRenderer ⟨64, 48, 0⟩ [⟨0, 0, 0, 0, 1⟩]
    true true (1/2)).2 0 ⟨0, 0, 0, 0, 1⟩ rfl (by norm_num)
  exact h.1 (0, 0) 3 (0, 0, 0)

/-! Claim C2. -/

/-- Full characterization of the video-mode loop from any value of the
sequential counter: the profiler count equals the number of frames read, at
most one result arises per frame, the frames-directory writes are exactly
one write per read frame under its sequential id (when `save_frames`), a
detection-less frame gets a plain overlay write under its id (when
`save_overlays`), and results carry the sequential id of their frame. -/
theorem process_video_loop_spec (sf so : Bool) (fps : ℚ) (src : String) :
    ∀ (frames : List VFrame) (k : ℕ) (results : List PoseResult)
      (events : List VWrite) (counted : ℕ),
      process_video_loop sf so fps src frames k = Except.ok (results, events, counted) →
      counted = frames.length ∧
      results.length ≤ frames.length ∧
      (events.filter VWrite.isFrameWrite =
        if sf then (idxFrom k frames).map (fun p => VWrite.frameWrite p.1 p.2.image)
        else []) ∧
      (∀ i fr, frames[i]? = some fr → fr.detection = none → so = true →
        VWrite.overlayWrite (k + i) fr.image false ∈ events) ∧
      (∀ i fr lms, frames[i]? = some fr → fr.detection = some lms →
        ∃ r ∈ results, r.frame_id = k + i ∧ r.landmarks = lms) ∧
      (∀ r ∈ results, ∃ i fr, frames[i]? = some fr ∧ r.frame_id = k + i ∧
        fr.detection = some r.landmarks) := by
  intro frames
  induction frames with
  | nil =>
    intro k results events counted h
    rw [process_video_loop] at h
    obtain ⟨h1, h2, h3⟩ : ([] : List PoseResult) = results ∧
        ([] : List VWrite) = events ∧ 0 = counted := by simpa using h
    subst h1; subst h2; subst h3
    refine ⟨rfl, by simp, by cases sf <;> simp [idxFrom], ?_, ?_, ?_⟩
    · intro i fr hc; simp at hc
    · intro i fr lms hc; simp at hc
    · intro r hr; simp at hr
  | cons f rest ih =>
    intro k results events counted h
    rw [process_video_loop] at h
    cases hd : f.detection with
    | some lms =>
      simp only [hd] at h
      cases hmk : mkPoseResult k ((k : ℚ) / fps) lms (meanVisibility lms) src with
      | error e => simp only [hmk] at h; exact absurd h (by simp)
      | ok result =>
        simp only [hmk] at h
        cases hrec : process_video_loop sf so fps src rest (k + 1) with
        | error e => simp only [hrec] at h; exact absurd h (by simp)
        | ok trip =>
          obtain ⟨results2, events2, counted2⟩ := trip
          simp only [hrec] at h
          obtain ⟨hres, hev, hcnt⟩ :
              result :: results2 = results ∧
              (if sf then [VWrite.frameWrite k f.image] else []) ++
                ((if so then [VWrite.overlayWrite k f.image true] else []) ++ events2)
                = events ∧
              counted2 + 1 = counted := by simpa using h
          subst hres; subst hev; subst hcnt
          obtain ⟨ih1, ih2, ih3, ih4, ih5, ih6⟩ := ih (k + 1) results2 events2 counted2 hrec
          obtain ⟨-, -, hres_eq⟩ :=
            (mkPoseResult_ok_iff k ((k : ℚ) / fps) lms (meanVisibility lms) src result).mp hmk
          refine ⟨by simp [ih1], ?_, ?_, ?_, ?_, ?_⟩
          · simp only [List.length_cons]; omega
          · rw [List.filter_append, List.filter_append, ih3]
            cases sf <;> cases so <;> simp [VWrite.isFrameWrite, idxFrom]
          · intro i fr hget hdet hso
            cases i with
            | zero =>
              simp only [List.getElem?_cons_zero, Option.some.injEq] at hget
              subst hget
              rw [hdet] at hd
              exact Option.noConfusion hd
            | succ j =>
              simp only [List.getElem?_cons_succ] at hget
              have hm := ih4 j fr hget hdet hso
              have hadd : k + 1 + j = k + (j + 1) := by omega
              rw [hadd] at hm
              simp only [List.mem_append]
              exact Or.inr (Or.inr hm)
          · intro i fr lms2 hget hdet
            cases i with
            | zero =>
              simp only [List.getElem?_cons_zero, Option.some.injEq] at hget
              subst hget
              rw [hd] at hdet
              obtain hl : lms = lms2 := Option.some.inj hdet
              subst hl
              exact ⟨result, List.mem_cons_self result results2,
                by rw [hres_eq]; simp, by rw [hres_eq]⟩
            | succ j =>
              simp only [List.getElem?_cons_succ] at hget
              obtain ⟨r, hrmem, hrid, hrlms⟩ := ih5 j fr lms2 hget hdet
              exact ⟨r, List.mem_cons_of_mem result hrmem, by omega, hrlms⟩
          · intro r hr
            rcases List.mem_cons.mp hr with hr | hr
            · subst hr
              refine ⟨0, f, by simp, by rw [hres_eq]; simp, ?_⟩
              rw [hres_eq, hd]
            · obtain ⟨i, fr, hget, hid, hdet2⟩ := ih6 r hr
              exact ⟨i + 1, fr, by simpa using hget, by omega, hdet2⟩
    | none =>
      simp only [hd] at h
      cases hrec : process_video_loop sf so fps src rest (k + 1) with
      | error e => simp only [hrec] at h; exact absurd h (by simp)
      | ok trip =>
        obtain ⟨results2, events2, counted2⟩ := trip
        simp only [hrec] at h
        obtain ⟨hres, hev, hcnt⟩ :
            results2 = results ∧
            (if sf then [VWrite.frameWrite k f.image] else []) ++
              ((if so then [VWrite.overlayWrite k f.image false] else []) ++ events2)
              = events ∧
            counted2 + 1 = counted := by simpa using h
        subst hres; subst hev; subst hcnt
        obtain ⟨ih1, ih2, ih3, ih4, ih5, ih6⟩ := ih (k + 1) results2 events2 counted2 hrec
        refine ⟨by simp [ih1], ?_, ?_, ?_, ?_, ?_⟩
        · simp only [List.length_cons]; omega
        · rw [List.filter_append, List.filter_append, ih3]
          cases sf <;> cases so <;> simp [VWrite.isFrameWrite, idxFrom]
        · intro i fr hget hdet hso
          cases i with
          | zero =>
            simp only [List.getElem?_cons_zero, Option.some.injEq] at hget
            subst hget
            simp only [List.mem_append]
            refine Or.inr (Or.inl ?_)
            rw [hso]
            simp
          | succ j =>
            simp only [List.getElem?_cons_succ] at hget
            have hm := ih4 j fr hget hdet hso
            have hadd : k + 1 + j = k + (j + 1) := by omega
            rw [hadd] at hm
            simp only [List.mem_append]
            exact Or.inr (Or.inr hm)
        · intro i fr lms2 hget hdet
          cases i with
          | zero =>
            simp only [List.getElem?_cons_zero, Option.some.injEq] at hget
            subst hget
            rw [hdet] at hd
            exact Option.noConfusion hd
          | succ j =>
            simp only [List.getElem?_cons_succ] at hget
            obtain ⟨r, hrmem, hrid, hrlms⟩ := ih5 j fr lms2 hget hdet
            exact ⟨r, hrmem, by omega, hrlms⟩
        · intro r hr
          obtain ⟨i, fr, hget, hid, hdet2⟩ := ih6 r hr
          exact ⟨i + 1, fr, by simpa using hget, by omega, hdet2⟩

/-- C2: in video mode the n-th successfully read frame (1-based n) is
assigned `frame_id = n-1`; when `save_frames` is enabled every read frame is
written to the frames directory under exactly its id regardless of the
detection outcome; and when overlay saving is enabled a frame with no
detected pose still gets a plain non-overlaid copy written to the overlay
directory under that same id. -/
theorem C2_video_frame_numbering (sf so : Bool) (fps : ℚ) (src : String)
    (frames : List VFrame) (results : List PoseResult) (events : List VWrite)
    (counted : ℕ)
    (h : process_video_loop sf so fps src frames 0 = Except.ok (results, events, counted)) :
    (sf = true → events.filter VWrite.isFrameWrite =
      (idxFrom 0 frames).map (fun p => VWrite.frameWrite p.1 p.2.image)) ∧
    (∀ i fr, frames[i]? = some fr → fr.detection = none → so = true →
      VWrite.overlayWrite i fr.image false ∈ events) ∧
    (∀ i fr lms, frames[i]? = some fr → fr.detection = some lms →
      ∃ r ∈ results, r.frame_id = i ∧ r.landmarks = lms) := by
  obtain ⟨-, -, h3, h4, h5, -⟩ :=
    process_video_loop_spec sf so fps src frames 0 results events counted h
  refine ⟨?_, ?_, ?_⟩
  · intro hsf; rw [h3, if_pos hsf]
  · intro i fr hget hdet hso
    simpa using h4 i fr hget hdet hso
  · intro i fr lms hget hdet
    simpa using h5 i fr lms hget hdet

/-- Witness for C2: a concrete two-frame video with no detections writes the
plain overlay copy of the second frame under id 1. -/
theorem C2_video_frame_numbering_witness :
    VWrite.overlayWrite 1 7 false ∈
      [VWrite.frameWrite 0 5, VWrite.overlayWrite 0 5 false,
       VWrite.frameWrite 1 7, VWrite.overlayWrite 1 7 false] := by
  have h := C2_video_frame_numbering true true 1 "v.mp4"
    [⟨5, none⟩, ⟨7, none⟩] []
    [VWrite.frameWrite 0 5, VWrite.overlayWrite 0 5 false,
     VWrite.frameWrite 1 7, VWrite.overlayWrite 1 7 false] 2 rfl
  exact h.2.1 1 ⟨7, none⟩ rfl rfl rfl

/-! Claim C3. -/

/-- Full characterization of the directory-mode loop from any values of the
enumeration index `a` and the saved-frame counter `c`: the profiler count
equals the number of files visited, the number of results equals the number
of successful detections, saved-frame/overlay writes for a successful file
use the count of successes among the preceding files, and each result
carries the enumeration index of its file. -/
theorem process_dir_loop_spec (sf so : Bool) :
    ∀ (files : List DirEntry) (a c : ℕ) (results : List PoseResult)
      (events : List DWrite) (counted : ℕ),
      process_dir_loop sf so files a c = Except.ok (results, events, counted) →
      counted = files.length ∧
      results.length = files.countP (fun g => g.detection.isSome) ∧
      (∀ i fl, files[i]? = some fl → fl.detection.isSome = true →
        (sf = true → DWrite.frameWrite
          (c + (files.take i).countP (fun g => g.detection.isSome)) fl.name ∈ events) ∧
        (so = true → fl.readable = true → DWrite.overlayWrite
          (c + (files.take i).countP (fun g => g.detection.isSome)) fl.name ∈ events)) ∧
      (∀ i fl lms, files[i]? = some fl → fl.detection = some lms →
        ∃ r ∈ results, r.frame_id = a + i ∧ r.landmarks = lms) ∧
      (∀ r ∈ results, ∃ i fl, files[i]? = some fl ∧ r.frame_id = a + i ∧
        fl.detection = some r.landmarks) := by
  intro files
  induction files with
  | nil =>
    intro a c results events counted h
    rw [process_dir_loop] at h
    obtain ⟨h1, h2, h3⟩ : ([] : List PoseResult) = results ∧
        ([] : List DWrite) = events ∧ 0 = counted := by simpa using h
    subst h1; subst h2; subst h3
    refine ⟨rfl, by simp, ?_, ?_, ?_⟩
    · intro i fl hc; simp at hc
    · intro i fl lms hc; simp at hc
    · intro r hr; simp at hr
  | cons fl rest ih =>
    intro a c results events counted h
    rw [process_dir_loop] at h
    cases hd : fl.detection with
    | none =>
      have hdet : detect_single_image fl.detection a fl.name = Except.ok none := by
        rw [hd]; rfl
      simp only [hdet] at h
      cases hrec : process_dir_loop sf so rest (a + 1) c with
      | error e => simp only [hrec] at h; exact absurd h (by simp)
      | ok trip =>
        obtain ⟨results2, events2, counted2⟩ := trip
        simp only [hrec] at h
        obtain ⟨hres, hev, hcnt⟩ : results2 = results ∧ events2 = events ∧
            counted2 + 1 = counted := by simpa using h
        subst hres; subst hev; subst hcnt
        obtain ⟨ih1, ih2, ih3, ih4, ih5⟩ := ih (a + 1) c results2 events2 counted2 hrec
        have hp : fl.detection.isSome = false := by rw [hd]; rfl
        refine ⟨by simp [ih1], ?_, ?_, ?_, ?_⟩
        · rw [ih2, List.countP_cons]
          simp [hp]
        · intro i fl2 hget hsome
          cases i with
          | zero =>
            simp only [List.getElem?_cons_zero, Option.some.injEq] at hget
            subst hget
            rw [hp] at hsome
            exact absurd hsome (by simp)
          | succ j =>
            simp only [List.getElem?_cons_succ] at hget
            have hid : c + ((fl :: rest).take (j + 1)).countP (fun g => g.detection.isSome)
                = c + (rest.take j).countP (fun g => g.detection.isSome) := by
              rw [List.take_succ_cons, List.countP_cons]
              simp [hp]
            rw [hid]
            exact ih3 j fl2 hget hsome
        · intro i fl2 lms2 hget hdet2
          cases i with
          | zero =>
            simp only [List.getElem?_cons_zero, Option.some.injEq] at hget
            subst hget
            rw [hdet2] at hd
            exact Option.noConfusion hd
          | succ j =>
            simp only [List.getElem?_cons_succ] at hget
            obtain ⟨r, hrmem, hrid, hrlms⟩ := ih4 j fl2 lms2 hget hdet2
            exact ⟨r, hrmem, by omega, hrlms⟩
        · intro r hr
          obtain ⟨i, fl2, hget, hid, hdet2⟩ := ih5 r hr
          exact ⟨i + 1, fl2, by simpa using hget, by omega, hdet2⟩
    | some lms =>
      cases hmk : mkPoseResult a 0 lms (meanVisibility lms) fl.name with
      | error e =>
        have hdet : detect_single_image fl.detection a fl.name = Except.error e := by
          rw [hd]
          simp [detect_single_image, hmk]
        simp only [hdet] at h
        exact absurd h (by simp)
      | ok r0 =>
        have hdet : detect_single_image fl.detection a fl.name = Except.ok (some r0) := by
          rw [hd]
          simp [detect_single_image, hmk]
        simp only [hdet] at h
        cases hrec : process_dir_loop sf so rest (a + 1) (c + 1) with
        | error e => simp only [hrec] at h; exact absurd h (by simp)
        | ok trip =>
          obtain ⟨results2, events2, counted2⟩ := trip
          simp only [hrec] at h
          obtain ⟨hres, hev, hcnt⟩ :
              r0 :: results2 = results ∧
              ((if sf then [DWrite.frameWrite c fl.name] else []) ++
                (if so && fl.readable then [DWrite.overlayWrite c fl.name] else [])) ++
                events2 = events ∧
              counted2 + 1 = counted := by simpa using h
          subst hres; subst hev; subst hcnt
          obtain ⟨ih1, ih2, ih3, ih4, ih5⟩ := ih (a + 1) (c + 1) results2 events2 counted2 hrec
          obtain ⟨-, -, hr0⟩ :=
            (mkPoseResult_ok_iff a 0 lms (meanVisibility lms) fl.name r0).mp hmk
          have hp : fl.detection.isSome = true := by rw [hd]; rfl
          refine ⟨by simp [ih1], ?_, ?_, ?_, ?_⟩
          · rw [List.length_cons, ih2, List.countP_cons]
            simp [hp]
          · intro i fl2 hget hsome
            cases i with
            | zero =>
              simp only [List.getElem?_cons_zero, Option.some.injEq] at hget
              subst hget
              constructor
              · intro hsf
                simp only [List.take_zero, List.countP_nil, Nat.add_zero, List.mem_append]
                exact Or.inl (Or.inl (by rw [if_pos hsf]; simp))
              · intro hso hrd
                simp only [List.take_zero, List.countP_nil, Nat.add_zero, List.mem_append]
                refine Or.inl (Or.inr ?_)
                rw [if_pos (by simp [hso, hrd])]
                simp
            | succ j =>
              simp only [List.getElem?_cons_succ] at hget
              have hmem := ih3 j fl2 hget hsome
              have hid : c + ((fl :: rest).take (j + 1)).countP (fun g => g.detection.isSome)
                  = c + 1 + (rest.take j).countP (fun g => g.detection.isSome) := by
                rw [List.take_succ_cons, List.countP_cons]
                simp only [hp, eq_self_iff_true, if_true]
                omega
              rw [hid]
              constructor
              · intro hsf
                simp only [List.mem_append]
                exact Or.inr (hmem.1 hsf)
              · intro hso hrd
                simp only [List.mem_append]
                exact Or.inr (hmem.2 hso hrd)
          · intro i fl2 lms2 hget hdet2
            cases i with
            | zero =>
              simp only [List.getElem?_cons_zero, Option.some.injEq] at hget
              subst hget
              rw [hd] at hdet2
              obtain hl : lms = lms2 := Option.some.inj hdet2
              subst hl
              exact ⟨r0, List.mem_cons_self r0 results2, by simp [hr0], by rw [hr0]⟩
            | succ j =>
              simp only [List.getElem?_cons_succ] at hget
              obtain ⟨r, hrmem, hrid, hrlms⟩ := ih4 j fl2 lms2 hget hdet2
              exact ⟨r, List.mem_cons_of_mem r0 hrmem, by omega, hrlms⟩
          · intro r hr
            rcases List.mem_cons.mp hr with hr | hr
            · subst hr
              refine ⟨0, fl, by simp, by simp [hr0], ?_⟩
              rw [hr0, hd]
            · obtain ⟨i, fl2, hget, hid, hdet2⟩ := ih5 r hr
              exact ⟨i + 1, fl2, by simpa using hget, by omega, hdet2⟩

/-- C3: directory mode visits image files in lexicographically sorted
filename order (the validator returns the filtered candidates sorted, a
permutation of the entries passing the image allow-list); each result's
`frame_id` is the 0-based position of its file in the full sorted candidate
list, while the saved-frame/overlay filenames use a second counter equal to
the number of successful detections among the preceding files — so the two
numberings can differ. -/
theorem C3_directory_numbering (sf so : Bool) (dirName : String)
    (entries files : List DirEntry) (results : List PoseResult)
    (events : List DWrite) (counted : ℕ)
    (hv : validate_image_directory true dirName entries = Except.ok files)
    (hp : process_dir_loop sf so files 0 0 = Except.ok (results, events, counted)) :
    List.Sorted nameLe files ∧
    files.Perm (entries.filter DirEntry.is_image_file) ∧
    (∀ i fl lms, files[i]? = some fl → fl.detection = some lms →
      ∃ r ∈ results, r.frame_id = i ∧ r.landmarks = lms) ∧
    (∀ r ∈ results, ∃ i fl, files[i]? = some fl ∧ r.frame_id = i ∧
      fl.detection = some r.landmarks) ∧
    (∀ i fl, files[i]? = some fl → fl.detection.isSome = true →
      (sf = true → DWrite.frameWrite
        ((files.take i).countP (fun g => g.detection.isSome)) fl.name ∈ events) ∧
      (so = true → fl.readable = true → DWrite.overlayWrite
        ((files.take i).countP (fun g => g.detection.isSome)) fl.name ∈ events)) := by
  have hfiles : files = List.insertionSort nameLe (entries.filter DirEntry.is_image_file) := by
    simp only [validate_image_directory] at hv
    rw [if_neg (by simp : ¬ (true = false))] at hv
    by_cases hemp : entries.filter DirEntry.is_image_file = []
    · rw [if_pos hemp] at hv
      exact Except.noConfusion hv
    · rw [if_neg hemp] at hv
      exact (Except.ok.inj hv).symm
  obtain ⟨-, -, h3, h4, h5⟩ := process_dir_loop_spec sf so files 0 0 results events counted hp
  refine ⟨?_, ?_, ?_, ?_, ?_⟩
  · rw [hfiles]
    exact List.sorted_insertionSort nameLe _
  · rw [hfiles]
    exact List.perm_insertionSort nameLe _
  · intro i fl lms hget hdet
    simpa using h4 i fl lms hget hdet
  · intro r hr
    obtain ⟨i, fl, hget, hid, hdet⟩ := h5 r hr
    exact ⟨i, fl, hget, by omega, hdet⟩
  · intro i fl hget hsome
    simpa using h3 i fl hget hsome

/-- Witness for C3: a concrete two-file directory listed out of order is
validated into sorted order. -/
theorem C3_directory_numbering_witness :
    List.Sorted nameLe
      [⟨"a.jpg", true, ".jpg", none, true⟩, ⟨"b.jpg", true, ".jpg", none, true⟩] :=
  (C3_directory_numbering true true "imgs"
    [⟨"b.jpg", true, ".jpg", none, true⟩, ⟨"a.jpg", true, ".jpg", none, true⟩]
    [⟨"a.jpg", true, ".jpg", none, true⟩, ⟨"b.jpg", true, ".jpg", none, true⟩]
    [] [] 2 rfl rfl).1

/-! Claim C10. -/

/-- C10: in all three input modes, a completed run builds `ProcessingStats`
satisfying `processed_frames + failed_frames = total_frames` and
`0 ≤ processed_frames ≤ total_frames`, where `total_frames` is the number of
profiler frame-count increments and `processed_frames` the number of
accumulated `PoseResult`s. -/
theorem C10_stats_invariant (sf so : Bool) (fps pt f0 st et : ℚ) (src : String)
    (frames : List VFrame) (files : List DirEntry)
    (det : Option (List LandmarkPoint)) (readable : Bool) :
    (∀ results events counted,
      process_video_loop sf so fps src frames 0 = Except.ok (results, events, counted) →
      ((statsOfRun counted results.length pt f0 st et).processed_frames : ℤ) +
          (statsOfRun counted results.length pt f0 st et).failed_frames =
          ((statsOfRun counted results.length pt f0 st et).total_frames : ℤ) ∧
        (statsOfRun counted results.length pt f0 st et).processed_frames ≤
          (statsOfRun counted results.length pt f0 st et).total_frames) ∧
    (∀ results events counted,
      process_dir_loop sf so files 0 0 = Except.ok (results, events, counted) →
      ((statsOfRun counted results.length pt f0 st et).processed_frames : ℤ) +
          (statsOfRun counted results.length pt f0 st et).failed_frames =
          ((statsOfRun counted results.length pt f0 st et).total_frames : ℤ) ∧
        (statsOfRun counted results.length pt f0 st et).processed_frames ≤
          (statsOfRun counted results.length pt f0 st et).total_frames) ∧
    (∀ results events counted,
      process_single_image sf so det readable src = Except.ok (results, events, counted) →
      ((statsOfRun counted results.length pt f0 st et).processed_frames : ℤ) +
          (statsOfRun counted results.length pt f0 st et).failed_frames =
          ((statsOfRun counted results.length pt f0 st et).total_frames : ℤ) ∧
        (statsOfRun counted results.length pt f0 st et).processed_frames ≤
          (statsOfRun counted results.length pt f0 st et).total_frames) := by
  refine ⟨?_, ?_, ?_⟩
  · intro results events counted h
    obtain ⟨h1, h2, -⟩ :=
      process_video_loop_spec sf so fps src frames 0 results events counted h
    constructor
    · simp only [statsOfRun]
      omega
    · simp only [statsOfRun]
      omega
  · intro results events counted h
    obtain ⟨h1, h2, -⟩ := process_dir_loop_spec sf so files 0 0 results events counted h
    have hle : results.length ≤ files.length := by
      rw [h2]
      exact List.countP_le_length _
    constructor
    · simp only [statsOfRun]
      omega
    · simp only [statsOfRun]
      omega
  · intro results events counted h
    rw [process_single_image] at h
    cases hdet : detect_single_image det 0 src with
    | error e => simp only [hdet] at h; exact absurd h (by simp)
    | ok o =>
      cases o with
      | none =>
        simp only [hdet] at h
        obtain ⟨hr, -, hc⟩ : ([] : List PoseResult) = results ∧
            ([] : List DWrite) = events ∧ 1 = counted := by simpa using h
        subst hr; subst hc
        constructor
        · norm_num [statsOfRun]
        · norm_num [statsOfRun]
      | some r0 =>
        simp only [hdet] at h
        obtain ⟨hr, -, hc⟩ : [r0] = results ∧
            ((if sf then [DWrite.frameWrite 0 src] else []) ++
              (if so && readable then [DWrite.overlayWrite 0 src] else [])) = events ∧
            1 = counted := by simpa using h
        subst hr; subst hc
        constructor
        · norm_num [statsOfRun]
        · norm_num [statsOfRun]

/-- Witness for C10 at a concrete empty video run. -/
theorem C10_stats_invariant_witness :
    ((statsOfRun 0 0 0 0 0 0).processed_frames : ℤ) +
        (statsOfRun 0 0 0 0 0 0).failed_frames =
        ((statsOfRun 0 0 0 0 0 0).total_frames : ℤ) ∧
      (statsOfRun 0 0 0 0 0 0).processed_frames ≤ (statsOfRun 0 0 0 0 0 0).total_frames :=
  (C10_stats_invariant true true 1 0 0 0 0 "v.mp4" [] [] none true).1 [] [] 0 rfl

end PipeDetect
